import Mathlib

/-!
Verification of the composable-node conversion tool (`make_compostable.py`).

The development shallowly embeds the program's text-rewriting core over
`List Char`.  Python regular expressions are hand-translated into
deterministic scanners; each scanner is named after the construct it
recognizes, and a comment records the regex it embeds.  File-system
effects are modelled by an explicit list of file entries.
-/

namespace MakeComposable

/-- Python regex `\w` (ASCII range, as used by the tool's inputs). -/
def isWordChar (c : Char) : Bool := c.isAlphanum || c == '_'

/-- Python regex `\s` and `str.strip` whitespace (ASCII range). -/
def isSpaceChar (c : Char) : Bool :=
  c == ' ' || c == '\t' || c == '\n' || c == '\r' || c == '\x0b' || c == '\x0c'

/-- Boolean prefix test on character lists. -/
def isPrefixL : List Char → List Char → Bool
  | [], _ => true
  | _ :: _, [] => false
  | p :: ps, c :: cs => p == c && isPrefixL ps cs

/-- Python's `pat in s` substring test. -/
def containsL (pat : List Char) : List Char → Bool
  | [] => pat.isEmpty
  | c :: cs => isPrefixL pat (c :: cs) || containsL pat cs

/-- Consume a literal, returning the remainder on success. -/
def dropLit (pat : List Char) (s : List Char) : Option (List Char) :=
  if isPrefixL pat s then some (s.drop pat.length) else none

/-- Python's `str.strip()`: drop leading and trailing whitespace. -/
def stripL (l : List Char) : List Char :=
  ((l.dropWhile isSpaceChar).reverse.dropWhile isSpaceChar).reverse

/-- Auxiliary for `splitlinesL`; mirrors Python's `str.splitlines()`
(no trailing empty line for a trailing newline). -/
def splitlinesAux (acc : List Char) : List Char → List (List Char)
  | [] => [acc.reverse]
  | c :: rest =>
    if c = '\n' then
      if rest.isEmpty then [acc.reverse] else acc.reverse :: splitlinesAux [] rest
    else splitlinesAux (c :: acc) rest

/-- Python's `str.splitlines()` for newline-separated text. -/
def splitlinesL : List Char → List (List Char)
  | [] => []
  | c :: cs => splitlinesAux [] (c :: cs)

/-- Net brace delta of a line: `line.count('{') - line.count('}')`. -/
def braceDelta (l : List Char) : Int :=
  (l.count '\x7b' : Int) - (l.count '\x7d' : Int)

/-- Python list slice `l[:n]` for a possibly negative `n`. -/
def pyTake (n : Int) (l : List α) : List α :=
  if 0 ≤ n then l.take n.toNat else l.take (l.length - (-n).toNat)

/-- Matcher for the anchor regex `\bC::C\s*\(` at the current position
(the word boundary is checked by the caller). -/
def matchCtorRefAt (cn : List Char) (s : List Char) : Bool :=
  match dropLit cn s with
  | none => false
  | some s1 =>
    match dropLit ("::".data) s1 with
    | none => false
    | some s2 =>
      match dropLit cn s2 with
      | none => false
      | some s3 =>
        match dropLit ("(".data) (s3.dropWhile isSpaceChar) with
        | none => false
        | some _ => true

/-- Search loop for `re.search(rf'\b{C}::{C}\s*\(', line)`, tracking
whether the previous character is a word character (for `\b`). -/
def searchCtorRefGo (cn : List Char) : Bool → List Char → Bool
  | _, [] => false
  | prevWord, c :: cs =>
    (!prevWord && matchCtorRefAt cn (c :: cs)) || searchCtorRefGo cn (isWordChar c) cs

/-- Does the line contain the class's constructor-definition anchor? -/
def searchCtorRef (cn : List Char) (l : List Char) : Bool :=
  searchCtorRefGo cn false l

/-- Matcher for `re.match(r'namespace\s+(\w+)', line)`: anchored at the
start of the (stripped) line, returning the captured identifier. -/
def nsMatch (l : List Char) : Option (List Char) :=
  match dropLit ("namespace".data) l with
  | none => none
  | some r =>
    if (r.takeWhile isSpaceChar).isEmpty then none
    else
      let r2 := r.dropWhile isSpaceChar
      let w := r2.takeWhile isWordChar
      if w.isEmpty then none else some w

/-- Inner forward scan of the resolver: the first line (current line
included) containing `{` yields that line's net brace delta. -/
def findBraceDelta : List (List Char) → Option Int
  | [] => none
  | l :: ls => if l.contains '\x7b' then some (braceDelta l) else findBraceDelta ls

/-- Line scan of `find_enclosing_namespace`: walks the lines up to and
including the anchor line, maintaining the namespace stack and the brace
depth exactly as the Python loop does.  (The source also fills a
`depth_to_ns` dictionary that is never read; it is omitted.)  Returns the
final stack and depth. -/
def nsScan (stack : List (List Char)) (depth : Int) :
    List (List Char) → List (List Char) × Int
  | [] => (stack, depth)
  | line :: rest =>
    let sline := stripL line
    match nsMatch sline with
    | some name =>
      match findBraceDelta (line :: rest) with
      | some delta => nsScan (stack ++ [name]) (depth + delta) rest
      | none => nsScan stack depth rest
    | none =>
      let depth2 := depth + braceDelta sline
      let stack2 := if depth2 < (stack.length : Int) then pyTake depth2 stack else stack
      nsScan stack2 depth2 rest

/-- Join namespace identifiers with `::` (Python's `"::".join`). -/
def joinColons : List (List Char) → List Char
  | [] => []
  | [x] => x
  | x :: y :: xs => x ++ ("::".data) ++ joinColons (y :: xs)

/-- Embedding of `find_enclosing_namespace(content, class_name)`. -/
def findEnclosingNamespace (content : List Char) (cn : List Char) : List Char :=
  let lines := splitlinesL content
  match lines.findIdx? (fun l => searchCtorRef cn l) with
  | none => []
  | some k =>
    let st := (nsScan [] 0 (lines.take (k + 1))).1
    if st.isEmpty then [] else joinColons st ++ ("::".data)

/-- Matcher for the rewriter's constructor regex
`(C::C\s*\([^)]*\))(\s*:\s*[^{]+)` at the current position.  Returns the
two groups and the remainder after the match.  The trailing `\s*[^{]+`
is equivalent to "at least one character, up to the first `{`", since
whitespace characters are themselves `[^{]`. -/
def matchCtorDefAt (cn : List Char) (s : List Char) :
    Option (List Char × List Char × List Char) :=
  match dropLit cn s with
  | none => none
  | some s1 =>
    match dropLit ("::".data) s1 with
    | none => none
    | some s2 =>
      match dropLit cn s2 with
      | none => none
      | some s3 =>
        let ws1 := s3.takeWhile isSpaceChar
        match dropLit ("(".data) (s3.dropWhile isSpaceChar) with
        | none => none
        | some s5 =>
          let params := s5.takeWhile (fun c => !(c == ')'))
          match dropLit (")".data) (s5.dropWhile (fun c => !(c == ')'))) with
          | none => none
          | some s7 =>
            let ws2 := s7.takeWhile isSpaceChar
            match dropLit (":".data) (s7.dropWhile isSpaceChar) with
            | none => none
            | some s9 =>
              let tail := s9.takeWhile (fun c => !(c == '\x7b'))
              if tail.isEmpty then none
              else
                some (cn ++ ("::".data) ++ cn ++ ws1 ++ ("(".data) ++ params ++ (")".data),
                      ws2 ++ (":".data) ++ tail,
                      s9.dropWhile (fun c => !(c == '\x7b')))

/-- Leftmost search for the rewriter's constructor regex (no `\b` in that
pattern).  Returns the text before the match, the two groups, and the
remainder. -/
def searchCtorDefGo (cn : List Char) (pre : List Char) :
    List Char → Option (List Char × List Char × List Char × List Char)
  | [] => none
  | c :: cs =>
    match matchCtorDefAt cn (c :: cs) with
    | some (g1, g2, rest) => some (pre.reverse, g1, g2, rest)
    | none => searchCtorDefGo cn (c :: pre) cs

/-- First match of `(C::C\s*\([^)]*\))(\s*:\s*[^{]+)` in the content. -/
def searchCtorDef (cn : List Char) (content : List Char) :
    Option (List Char × List Char × List Char × List Char) :=
  searchCtorDefGo cn [] content

/-- Matcher for `\bNode\s*\(([^)]*)\)` at the current position (the word
boundary is checked by the caller).  Returns the captured argument list
and the remainder after the match. -/
def matchNodeCallAt (s : List Char) : Option (List Char × List Char) :=
  match dropLit ("Node".data) s with
  | none => none
  | some s1 =>
    match dropLit ("(".data) (s1.dropWhile isSpaceChar) with
    | none => none
    | some s3 =>
      let args := s3.takeWhile (fun c => !(c == ')'))
      match dropLit (")".data) (s3.dropWhile (fun c => !(c == ')'))) with
      | none => none
      | some s5 => some (args, s5)

/-- Global substitution `re.sub(r'\bNode\s*\(([^)]*)\)', r'Node(\1, options)', s)`.
The fuel argument only bounds the recursion; one unit is spent per
consumed character, so `s.length` units can never run out. -/
def subNodeCallGo : Nat → Bool → List Char → List Char
  | 0, _, s => s
  | _ + 1, _, [] => []
  | fuel + 1, prevWord, c :: cs =>
    if prevWord then c :: subNodeCallGo fuel (isWordChar c) cs
    else
      match matchNodeCallAt (c :: cs) with
      | some (args, rest) =>
        ("Node(".data) ++ args ++ (", options)".data) ++ subNodeCallGo fuel false rest
      | none => c :: subNodeCallGo fuel (isWordChar c) cs

/-- Rewrite every base-node initializer call `Node(<args>)` to
`Node(<args>, options)`. -/
def subNodeCall (s : List Char) : List Char :=
  subNodeCallGo s.length false s

/-- Search counterpart of the Node-call substitution: does any position
of the text admit a match of `\bNode\s*\(([^)]*)\)`?  Used to reason
about when the substitution leaves its input unchanged. -/
def searchNodeCall : Bool → List Char → Bool
  | _, [] => false
  | prev, c :: cs =>
    (!prev && (matchNodeCallAt (c :: cs)).isSome) || searchNodeCall (isWordChar c) cs

/-- Python octal digit test. -/
def isOctDigitC (c : Char) : Bool := '0' ≤ c && c ≤ '7'

/-- Numeric value of a decimal digit character. -/
def digitVal (c : Char) : Nat := c.toNat - 48

/-- Replacement-template expansion of Python's `re` module
(`re._parser.parse_template` together with the group substitution of
`expand_template`), for a pattern with two capturing groups that both
participate in the match: `g0` is the whole matched text, `g1` and `g2`
the group texts.  After a backslash: a second backslash or one of the
letters a b f n r t v yields the escaped character; a digit yields a
group reference (one digit, or two when the next character is also a
digit) unless three octal digits follow the backslash, which yield an
octal character escape (error above 0o377); a leading digit 0 always
starts an octal escape of up to two more octal digits; the form
`g<digits>` references that group; any other ASCII letter is an error;
any other character keeps the backslash and the character.  A reference
to a group the pattern does not have, a malformed `g<...>`, or a
trailing backslash is an error.  `none` is returned where CPython
raises (`re.error`, or `IndexError` for an unknown group name); either
exception aborts the tool.  Not modelled: the deprecated `g<...>` names
that are not plain digit strings yet parse as Python int literals (such
as `g<+1>`), which CPython accepts with a warning; they are treated as
errors here.  The fuel only bounds the recursion; at least one template
character is consumed per unit, so the template's length never runs
out.

One parsed template token: literal characters to emit, a group
reference, or an error (a CPython `re.error` or `IndexError`). -/
inductive TemplateTok where
  | lit : List Char → List Char → TemplateTok
  | grp : Nat → List Char → TemplateTok
  | err : TemplateTok

/-- Parse one token at the head of a replacement template (the head of
the `while` loop of `parse_template`); the second component of `lit` and
`grp` is the remaining template. -/
def parseTemplateTok : List Char → TemplateTok
  | [] => .err
  | c :: rest =>
    if !(c == '\\') then .lit [c] rest
    else
      match rest with
      | [] => .err
      | d :: rest2 =>
        if d == '\\' then .lit ['\\'] rest2
        else if d == 'a' then .lit ['\x07'] rest2
        else if d == 'b' then .lit ['\x08'] rest2
        else if d == 'f' then .lit ['\x0c'] rest2
        else if d == 'n' then .lit ['\n'] rest2
        else if d == 'r' then .lit ['\r'] rest2
        else if d == 't' then .lit ['\t'] rest2
        else if d == 'v' then .lit ['\x0b'] rest2
        else if d == 'g' then
          match rest2 with
          | '<' :: rest3 =>
            let name := rest3.takeWhile (fun x => !(x == '>'))
            if name.length == rest3.length then .err
            else if name.isEmpty then .err
            else if name.all (fun x => x.isDigit) then
              .grp (name.foldl (fun a x => 10 * a + digitVal x) 0)
                ((rest3.dropWhile (fun x => !(x == '>'))).drop 1)
            else .err
          | _ => .err
        else if d == '0' then
          match rest2 with
          | e1 :: e2 :: rest4 =>
            if isOctDigitC e1 && isOctDigitC e2 then
              .lit [Char.ofNat (8 * digitVal e1 + digitVal e2)] rest4
            else if isOctDigitC e1 then .lit [Char.ofNat (digitVal e1)] (e2 :: rest4)
            else .lit [Char.ofNat 0] (e1 :: e2 :: rest4)
          | [e1] =>
            if isOctDigitC e1 then .lit [Char.ofNat (digitVal e1)] []
            else .lit [Char.ofNat 0] [e1]
          | [] => .lit [Char.ofNat 0] []
        else if d.isDigit then
          match rest2 with
          | e1 :: rest3 =>
            if e1.isDigit then
              match rest3 with
              | e2 :: rest4 =>
                if isOctDigitC d && isOctDigitC e1 && isOctDigitC e2 then
                  if 255 < 64 * digitVal d + 8 * digitVal e1 + digitVal e2 then .err
                  else .lit [Char.ofNat (64 * digitVal d + 8 * digitVal e1 + digitVal e2)] rest4
                else .grp (10 * digitVal d + digitVal e1) (e2 :: rest4)
              | [] => .grp (10 * digitVal d + digitVal e1) []
            else .grp (digitVal d) (e1 :: rest3)
          | [] => .grp (digitVal d) []
        else if d.isAlpha then .err
        else .lit ['\\', d] rest2

/-- The expansion loop: emit each token, substituting group texts; a
reference to a group the two-group pattern does not have is an error
(CPython's `addgroup` check). -/
def expandTemplateGo (g0 g1 g2 : List Char) : Nat → List Char → Option (List Char)
  | _, [] => some []
  | 0, _ :: _ => none
  | fuel + 1, c :: rest =>
    match parseTemplateTok (c :: rest) with
    | .err => none
    | .lit cs rest2 => (expandTemplateGo g0 g1 g2 fuel rest2).map (fun t => cs ++ t)
    | .grp i rest2 =>
      if i == 0 then (expandTemplateGo g0 g1 g2 fuel rest2).map (fun t => g0 ++ t)
      else if i == 1 then (expandTemplateGo g0 g1 g2 fuel rest2).map (fun t => g1 ++ t)
      else if i == 2 then (expandTemplateGo g0 g1 g2 fuel rest2).map (fun t => g2 ++ t)
      else none

/-- Expansion of a replacement template under a two-group match. -/
def expandTemplate (g0 g1 g2 t : List Char) : Option (List Char) :=
  expandTemplateGo g0 g1 g2 t.length t

/-- Outcome of `update_node_constructor` on one file's content: the top
idempotence guard fired, the constructor pattern was not found, the
replacement template aborted with an uncaught exception, or the file
receives the given new content. -/
inductive UpdateResult where
  | skippedAlready : UpdateResult
  | notFound : UpdateResult
  | subError : UpdateResult
  | updated : List Char → UpdateResult
deriving DecidableEq

/-- Embedding of the pure part of `update_node_constructor(class_name, file_path)`:
from the file's old content to its outcome.  The call
`constructor_regex.sub(updated_constructor, content, count=1)` treats
`updated_constructor` — which embeds the initializer tail taken from the
file — as a replacement template, so it passes through Python's
template-escape processing (`expandTemplate`); the match spans exactly
groups 1 and 2, so the whole-match text is their concatenation.  (The
fixed inner templates of the tool — `Node(\1, options)` here and the
call-site and header replacements — have their sole group reference
spliced directly, which is exactly Python's expansion of those literal
templates.) -/
def updateNodeConstructor (cn : List Char) (content : List Char) : UpdateResult :=
  if containsL (cn ++ ("::".data)) content && containsL ("NodeOptions".data) content then
    .skippedAlready
  else
    match searchCtorDef cn content with
    | none => .notFound
    | some (pre, g1, g2, rest) =>
      let newSignature := cn ++ ("::".data) ++ cn ++ ("(const rclcpp::NodeOptions & options)".data)
      let updatedInitializer := subNodeCall g2
      match expandTemplate (g1 ++ g2) g1 g2 (newSignature ++ updatedInitializer) with
      | none => .subError
      | some replacement =>
        let updatedContent := pre ++ replacement ++ rest
        let nsQual := findEnclosingNamespace content cn
        let registerMacro :=
          ("RCLCPP_COMPONENTS_REGISTER_NODE(".data) ++ nsQual ++ cn ++ (")".data)
        if containsL registerMacro updatedContent then .updated updatedContent
        else
          .updated (updatedContent ++
            ("\n\n#include \"rclcpp_components/register_node_macro.hpp\"\n".data) ++
            registerMacro ++ ("\n".data))

/-- Matcher for the call-site regex `std::make_shared<([\w:]*C)>\s*\(\s*\)`
at the current position.  The greedy `[\w:]*` run must end with the class
name and be followed directly by `>`; the captured group is the whole
run.  Returns the group and the remainder after the match. -/
def matchMakeSharedAt (cn : List Char) (s : List Char) : Option (List Char × List Char) :=
  match dropLit ("std::make_shared<".data) s with
  | none => none
  | some s1 =>
    let run := s1.takeWhile (fun c => isWordChar c || c == ':')
    if !(cn.isSuffixOf run) then none
    else
      match dropLit (">".data) (s1.dropWhile (fun c => isWordChar c || c == ':')) with
      | none => none
      | some s3 =>
        match dropLit ("(".data) (s3.dropWhile isSpaceChar) with
        | none => none
        | some s5 =>
          match dropLit (")".data) (s5.dropWhile isSpaceChar) with
          | none => none
          | some s7 => some (run, s7)

/-- Does the call-site pattern occur anywhere in the content
(`constructor_call_pattern.search(content)`)? -/
def searchMakeShared (cn : List Char) : List Char → Bool
  | [] => false
  | c :: cs => (matchMakeSharedAt cn (c :: cs)).isSome || searchMakeShared cn cs

/-- Global substitution of the call-site pattern with
`std::make_shared<\1>(rclcpp::NodeOptions{})` (fuel bounds recursion as
in `subNodeCallGo`). -/
def subMakeSharedGo (cn : List Char) : Nat → List Char → List Char
  | 0, s => s
  | _ + 1, [] => []
  | fuel + 1, c :: cs =>
    match matchMakeSharedAt cn (c :: cs) with
    | some (run, rest) =>
      ("std::make_shared<".data) ++ run ++ (">(rclcpp::NodeOptions\x7b\x7d)".data) ++
        subMakeSharedGo cn fuel rest
    | none => c :: subMakeSharedGo cn fuel cs

/-- Rewrite every zero-argument shared-pointer construction of the class. -/
def subMakeShared (cn : List Char) (s : List Char) : List Char :=
  subMakeSharedGo cn s.length s

/-- Per-file body of `update_main_constructors`: the file is written back
(with the substituted content) exactly when the pattern search succeeds. -/
def updateMainFile (cn : List Char) (content : List Char) : Option (List Char) :=
  if searchMakeShared cn content then some (subMakeShared cn content) else none

/-- Matcher for the header declaration regex `\bC\s*\([^;{]*\);` at the
current position (word boundary checked by the caller).  After `(`, the
greedy `[^;{]*` run must end with `)` and be followed directly by `;`.
Returns the remainder after the match. -/
def matchHeaderDeclAt (cn : List Char) (s : List Char) : Option (List Char) :=
  match dropLit cn s with
  | none => none
  | some s1 =>
    match dropLit ("(".data) (s1.dropWhile isSpaceChar) with
    | none => none
    | some s3 =>
      let run := s3.takeWhile (fun c => !(c == ';') && !(c == '\x7b'))
      if !((")".data).isSuffixOf run) then none
      else
        match dropLit (";".data) (s3.dropWhile (fun c => !(c == ';') && !(c == '\x7b'))) with
        | none => none
        | some s5 => some s5

/-- Leftmost search for the header declaration regex, tracking the word
boundary.  Returns the text before the match and the remainder after it. -/
def searchHeaderDeclGo (cn : List Char) (prevWord : Bool) (pre : List Char) :
    List Char → Option (List Char × List Char)
  | [] => none
  | c :: cs =>
    if !prevWord then
      match matchHeaderDeclAt cn (c :: cs) with
      | some rest => some (pre.reverse, rest)
      | none => searchHeaderDeclGo cn (isWordChar c) (c :: pre) cs
    else searchHeaderDeclGo cn (isWordChar c) (c :: pre) cs

/-- Pure part of `update_header_constructor_declaration`: replace the
first constructor declaration (`count=1`) with the explicit
options-taking declaration, or report that none was found. -/
def updateHeaderContent (cn : List Char) (content : List Char) : Option (List Char) :=
  match searchHeaderDeclGo cn false [] content with
  | none => none
  | some (pre, rest) =>
    some (pre ++ ("  explicit ".data) ++ cn ++
      ("(const rclcpp::NodeOptions & options);".data) ++ rest)

/-- First alternative of the discoverer's pattern,
`(\w+)::\1\s*\([^)]*\)\s*:\s*(?:public\s+)?(?:Node|LifecycleNode)\b`,
at the current position.  The greedy `(\w+)` must be the full word run,
since the following literal `:` is not a word character.  Returns the
captured class name and the remainder after the match. -/
def matchBaseNodeRef (s : List Char) : Option (List Char) :=
  match dropLit ("Node".data) s with
  | some r => if (match r with | [] => true | c :: _ => !(isWordChar c)) then some r else none
  | none => none

/-- Second branch of the `(?:Node|LifecycleNode)\b` alternation. -/
def matchLifecycleRef (s : List Char) : Option (List Char) :=
  match dropLit ("LifecycleNode".data) s with
  | some r => if (match r with | [] => true | c :: _ => !(isWordChar c)) then some r else none
  | none => none

/-- The `(?:Node|LifecycleNode)\b` tail of the discoverer's first
alternative, trying the branches in the regex's order. -/
def matchBaseRef (s : List Char) : Option (List Char) :=
  match matchBaseNodeRef s with
  | some r => some r
  | none => matchLifecycleRef s

/-- First alternative of the discoverer's constructor pattern at the
current position; returns the class name and the remainder. -/
def matchDiscover1At (s : List Char) : Option (List Char × List Char) :=
  let run := s.takeWhile isWordChar
  if run.isEmpty then none
  else
    match dropLit ("::".data) (s.dropWhile isWordChar) with
    | none => none
    | some s2 =>
      match dropLit run s2 with
      | none => none
      | some s3 =>
        match dropLit ("(".data) (s3.dropWhile isSpaceChar) with
        | none => none
        | some s5 =>
          match dropLit (")".data) (s5.dropWhile (fun c => !(c == ')'))) with
          | none => none
          | some s7 =>
            match dropLit (":".data) (s7.dropWhile isSpaceChar) with
            | none => none
            | some s9 =>
              let s10 := s9.dropWhile isSpaceChar
              let withPublic : Option (List Char) :=
                match dropLit ("public".data) s10 with
                | none => none
                | some t =>
                  if (t.takeWhile isSpaceChar).isEmpty then none
                  else matchBaseRef (t.dropWhile isSpaceChar)
              match withPublic with
              | some rest => some (run, rest)
              | none =>
                match matchBaseRef s10 with
                | some rest => some (run, rest)
                | none => none

/-- A backreference in Python's `re` fails when the referenced group did
not participate in the match. -/
def matchBackref (g : Option (List Char)) (s : List Char) : Option (List Char) :=
  match g with
  | none => none
  | some p => dropLit p s

/-- Second alternative of the discoverer's pattern,
`(\w+)::\2\s*\([^)]*\)\s*:\s*\1\s*\(`, at the current position.  The
final `\1` backreferences group 1 of the *first* alternative, which never
participates when this alternative is tried, so the branch cannot match. -/
def matchDiscover2At (s : List Char) : Option (List Char × List Char) :=
  let run := s.takeWhile isWordChar
  if run.isEmpty then none
  else
    match dropLit ("::".data) (s.dropWhile isWordChar) with
    | none => none
    | some s2 =>
      match dropLit run s2 with
      | none => none
      | some s3 =>
        match dropLit ("(".data) (s3.dropWhile isSpaceChar) with
        | none => none
        | some s5 =>
          match dropLit (")".data) (s5.dropWhile (fun c => !(c == ')'))) with
          | none => none
          | some s7 =>
            match dropLit (":".data) (s7.dropWhile isSpaceChar) with
            | none => none
            | some s9 =>
              match matchBackref none (s9.dropWhile isSpaceChar) with
              | none => none
              | some s11 =>
                match dropLit ("(".data) (s11.dropWhile isSpaceChar) with
                | none => none
                | some s13 => some (run, s13)

/-- The `finditer` loop of `find_ros2_node_constructors` on one file's
content: non-overlapping leftmost matches, alternatives tried in order,
yielding the captured class names. -/
def findCtorsGo : Nat → List Char → List (List Char)
  | 0, _ => []
  | _ + 1, [] => []
  | fuel + 1, c :: cs =>
    match matchDiscover1At (c :: cs) with
    | some (g, rest) => g :: findCtorsGo fuel rest
    | none =>
      match matchDiscover2At (c :: cs) with
      | some (g, rest) => g :: findCtorsGo fuel rest
      | none => findCtorsGo fuel cs

/-- Class names of all constructor-pattern matches in one file. -/
def findCtorsInFile (content : List Char) : List (List Char) :=
  findCtorsGo content.length content

/-- A file in the modelled file system: a directory (as a component
list), a file name, and content.  The tool reads each file before
writing it, so the model's write updates an existing entry. -/
structure FileEntry where
  dir : List (List Char)
  name : List Char
  content : List Char
deriving DecidableEq

/-- The file system is a finite list of files; search order of `glob` and
`rglob` is the list order (the underlying order is unspecified in the
source and must not be relied upon). -/
abbrev FS := List FileEntry

/-- Read a file's content (`Path.read_text`). -/
def readFile (fs : FS) (d : List (List Char)) (n : List Char) : Option (List Char) :=
  (fs.find? (fun f => decide (f.dir = d ∧ f.name = n))).map (fun f => f.content)

/-- Write a file's content (`Path.write_text` on a previously read file). -/
def writeFile (fs : FS) (d : List (List Char)) (n : List Char) (content : List Char) : FS :=
  fs.map (fun f => if f.dir = d ∧ f.name = n then { f with content := content } else f)

/-- A directory exists when some file lives in it or below it
(`Path.exists` on the directories the tool probes). -/
def dirExists (fs : FS) (d : List (List Char)) : Bool :=
  fs.any (fun f => d.isPrefixOf f.dir)

/-- Python's `Path.stem`: the file name with its last extension removed. -/
def stemOf (n : List Char) : List Char :=
  if n.reverse.contains '.' then ((n.reverse.dropWhile (fun c => !(c == '.'))).drop 1).reverse
  else n

/-- The glob `dir.glob(f"{stem}.h*")`: files of that directory whose name
starts with `stem` followed by `.h`. -/
def globHeader (fs : FS) (d : List (List Char)) (stem : List Char) : List FileEntry :=
  fs.filter (fun f => decide (f.dir = d) && isPrefixL (stem ++ (".h".data)) f.name)

/-- The header candidate list of `update_header_constructor_declaration`:
the implementation file's own directory first, then the package-root
`include` directory (if it exists), then the nested include directory
named after the package (if it exists). -/
def headerCandidates (fs : FS) (srcDir : List (List Char)) (cppName : List Char) :
    List FileEntry :=
  let stem := stemOf cppName
  let pkgDir := srcDir.dropLast
  let includeDir := pkgDir ++ [("include".data)]
  let nestedDir := includeDir ++ [pkgDir.getLastD []]
  globHeader fs srcDir stem ++
    (if dirExists fs includeDir then
      globHeader fs includeDir stem ++
        (if dirExists fs nestedDir then globHeader fs nestedDir stem else [])
    else [])

/-- Outcome of the header-synchronization step. -/
inductive HeaderOutcome where
  | noHeader : HeaderOutcome
  | declNotFound : HeaderOutcome
  | updatedHeader : HeaderOutcome
deriving DecidableEq

/-- Embedding of `update_header_constructor_declaration(class_name, cpp_path)`
over the modelled file system: take the first header candidate, rewrite
its first constructor declaration, and write it back; report not-found
(and change nothing) when no candidate or no declaration exists. -/
def updateHeaderFs (cn : List Char) (srcDir : List (List Char)) (cppName : List Char)
    (fs : FS) : HeaderOutcome × FS :=
  match headerCandidates fs srcDir cppName with
  | [] => (.noHeader, fs)
  | h :: _ =>
    match updateHeaderContent cn h.content with
    | none => (.declNotFound, fs)
    | some c2 => (.updatedHeader, writeFile fs h.dir h.name c2)

/-- Does the file name match the entry-point glob `main*.cpp`? -/
def isMainCpp (n : List Char) : Bool :=
  isPrefixL ("main".data) n && (".cpp".data).isSuffixOf n && decide (8 ≤ n.length)

/-- The recursive glob `package_dir.rglob("main*.cpp")`. -/
def rglobMain (fs : FS) (pkgDir : List (List Char)) : List FileEntry :=
  fs.filter (fun f => pkgDir.isPrefixOf f.dir && isMainCpp f.name)

/-- Embedding of `update_main_constructors(class_name, cpp_path)`: the
candidate paths are computed once, then each is read and written back
exactly when a substitution occurred in it. -/
def updateMainsFs (cn : List Char) (srcDir : List (List Char)) (cppName : List Char)
    (fs : FS) : FS :=
  let cands := ((rglobMain fs srcDir.dropLast).map (fun f => (f.dir, f.name))) ++
    [(srcDir, cppName)]
  cands.foldl (fun acc dn =>
    match readFile acc dn.1 dn.2 with
    | none => acc
    | some content =>
      match updateMainFile cn content with
      | none => acc
      | some c2 => writeFile acc dn.1 dn.2 c2) fs

/-- Embedding of `update_node_constructor` at the file-system level: on a
successful rewrite the file is written and the call-site updater runs;
the guard and not-found paths leave the file system untouched, as does a
template error (the uncaught exception aborts the tool before any
write). -/
def updateNodeFs (cn : List Char) (srcDir : List (List Char)) (cppName : List Char)
    (fs : FS) : FS :=
  match readFile fs srcDir cppName with
  | none => fs
  | some content =>
    match updateNodeConstructor cn content with
    | .skippedAlready => fs
    | .notFound => fs
    | .subError => fs
    | .updated c2 => updateMainsFs cn srcDir cppName (writeFile fs srcDir cppName c2)

/-- One iteration of `apply_composable_conversion` for one confirmed
candidate: the constructor rewrite (with chained call-site update), then
the header synchronization. -/
def convertCandidate (cn : List Char) (srcDir : List (List Char)) (cppName : List Char)
    (fs : FS) : FS :=
  (updateHeaderFs cn srcDir cppName (updateNodeFs cn srcDir cppName fs)).2

/-! Measurement helpers used only to state claims about rewritten text
(they are vocabulary for the specification's "number of parameters" and
"number of arguments", not part of the embedded program). -/

/-- The argument text of the first call `callee(<args>)` in the text. -/
def firstCallArgs (callee : List Char) : List Char → Option (List Char)
  | [] => none
  | c :: cs =>
    match dropLit (callee ++ ("(".data)) (c :: cs) with
    | some r => some (r.takeWhile (fun a => !(a == ')')))
    | none => firstCallArgs callee cs

/-- Number of comma-separated items in an argument or parameter list. -/
def countArgs (args : List Char) : Nat :=
  if (stripL args).isEmpty then 0 else args.count ',' + 1

/-! Concrete scenario used for the repeated-conversion check: a package
with an implementation file, a header in the nested include directory,
and an entry-point file. -/

/-- The package's source directory `pkg/src`. -/
def pkgSrcDir : List (List Char) := [("pkg".data), ("src".data)]

/-- The package's nested include directory `pkg/include/pkg`. -/
def pkgNestedIncludeDir : List (List Char) := [("pkg".data), ("include".data), ("pkg".data)]

/-- Demo package before conversion. -/
def fsDemo : FS :=
  [⟨pkgSrcDir, ("foo.cpp".data), ("Foo::Foo() : Node(\"f\") \x7b\x7d\n".data)⟩,
   ⟨pkgNestedIncludeDir, ("foo.hpp".data), ("class Foo \x7b\npublic:\n  Foo();\n\x7d;\n".data)⟩,
   ⟨pkgSrcDir, ("main.cpp".data), ("auto n = std::make_shared<Foo>();\n".data)⟩]

/-- Demo package after one full conversion of the candidate. -/
def fsDemoOnce : FS := convertCandidate ("Foo".data) pkgSrcDir ("foo.cpp".data) fsDemo

/-- Demo package after converting the same candidate a second time. -/
def fsDemoTwice : FS := convertCandidate ("Foo".data) pkgSrcDir ("foo.cpp".data) fsDemoOnce

end MakeComposable

namespace MakeComposable

set_option maxRecDepth 100000

/-! General lemmas about the scanners, used below to settle the claims
on symbolic inputs. -/

/-- A list is a prefix of itself followed by anything. -/
theorem isPrefixL_append_self (p r : List Char) : isPrefixL p (p ++ r) = true := by
  induction p with
  | nil => rfl
  | cons c cs ih => simp [isPrefixL, ih]

/-- Consuming a literal off the text it prefixes leaves the remainder. -/
theorem dropLit_self (p r : List Char) : dropLit p (p ++ r) = some r := by
  simp [dropLit, isPrefixL_append_self, List.drop_left]

/-- The empty literal consumes nothing. -/
theorem dropLit_nil (s : List Char) : dropLit [] s = some s := by
  simp [dropLit, isPrefixL]

/-- Literal consumption proceeds character by character. -/
theorem dropLit_cons_cons (c : Char) (p s : List Char) :
    dropLit (c :: p) (c :: s) = dropLit p s := by
  simp [dropLit, isPrefixL]

/-- A run of characters all satisfying the predicate passes through
`takeWhile`. -/
theorem takeWhile_append_all (p : Char → Bool) (l r : List Char)
    (h : ∀ a ∈ l, p a = true) : (l ++ r).takeWhile p = l ++ r.takeWhile p := by
  induction l with
  | nil => simp
  | cons c cs ih =>
    have hc : p c = true := h c (by simp)
    simp [List.takeWhile_cons, hc]
    exact ih (fun a ha => h a (by simp [ha]))

/-- A run of characters all satisfying the predicate is dropped by
`dropWhile`. -/
theorem dropWhile_append_all (p : Char → Bool) (l r : List Char)
    (h : ∀ a ∈ l, p a = true) : (l ++ r).dropWhile p = r.dropWhile p := by
  induction l with
  | nil => simp
  | cons c cs ih =>
    have hc : p c = true := h c (by simp)
    simp [List.dropWhile_cons, hc]
    exact ih (fun a ha => h a (by simp [ha]))

/-- The Node-call matcher fails where the literal Node is not next. -/
theorem matchNodeCallAt_none (c : Char) (cs : List Char)
    (h : isPrefixL ("Node".data) (c :: cs) = false) : matchNodeCallAt (c :: cs) = none := by
  simp [matchNodeCallAt, dropLit, h]

/-- Text without the substring Node admits no Node-call match site. -/
theorem searchNodeCall_of_not_contains (s : List Char)
    (h : containsL ("Node".data) s = false) : ∀ prev, searchNodeCall prev s = false := by
  induction s with
  | nil => intro prev; rfl
  | cons c cs ih =>
    intro prev
    rw [containsL] at h
    have h1 : isPrefixL ("Node".data) (c :: cs) = false := by
      cases hp : isPrefixL ("Node".data) (c :: cs) <;> simp [hp] at h ⊢
    have h2 : containsL ("Node".data) cs = false := by
      cases hp : containsL ("Node".data) cs <;> simp [hp] at h ⊢
    rw [searchNodeCall]
    simp [matchNodeCallAt_none c cs h1, ih h2]

/-- The Node-call substitution is the identity wherever its search
counterpart finds no match site. -/
theorem subNodeCallGo_id (s : List Char) : ∀ (fuel : Nat) (prev : Bool),
    s.length ≤ fuel → searchNodeCall prev s = false → subNodeCallGo fuel prev s = s := by
  induction s with
  | nil => intro fuel prev _ _; cases fuel <;> rfl
  | cons c cs ih =>
    intro fuel prev hlen hsearch
    cases fuel with
    | zero => simp at hlen
    | succ f =>
      rw [searchNodeCall] at hsearch
      have h2 : searchNodeCall (isWordChar c) cs = false := by
        cases hp : searchNodeCall (isWordChar c) cs <;> simp [hp] at hsearch ⊢
      have hlen2 : cs.length ≤ f := by simpa using hlen
      cases hprev : prev with
      | true => simpa [subNodeCallGo] using ih f (isWordChar c) hlen2 h2
      | false =>
        have hm : matchNodeCallAt (c :: cs) = none := by
          cases hp : matchNodeCallAt (c :: cs) with
          | none => rfl
          | some v => rw [hprev, hp] at hsearch; simp at hsearch
        simpa [subNodeCallGo, hm] using ih f (isWordChar c) hlen2 h2

/-- The Node-call substitution leaves match-free text unchanged. -/
theorem subNodeCall_eq_self (s : List Char) (h : searchNodeCall false s = false) :
    subNodeCall s = s :=
  subNodeCallGo_id s s.length false le_rfl h

/-- Within an initializer tail ` : LifecycleNode(<args>)`, the token Node
occurs only inside the word LifecycleNode, where the word boundary check
blocks it, so no substitution site exists. -/
theorem searchNodeCall_lifecycle (t : List Char)
    (h : containsL ("Node".data) t = false) :
    searchNodeCall false ((" : LifecycleNode(".data) ++ t) = false := by
  have e : (" : LifecycleNode(".data) ++ t =
      ' ' :: ':' :: ' ' :: 'L' :: 'i' :: 'f' :: 'e' :: 'c' :: 'y' :: 'c' :: 'l' :: 'e' ::
      'N' :: 'o' :: 'd' :: 'e' :: '(' :: t := rfl
  rw [e]
  simp [searchNodeCall, matchNodeCallAt, dropLit, isPrefixL, isWordChar,
    searchNodeCall_of_not_contains t h]

/-- Template expansion is the identity on backslash-free templates. -/
theorem expandTemplateGo_no_backslash (g0 g1 g2 : List Char) (s : List Char) :
    ∀ fuel : Nat, s.length ≤ fuel → (∀ a ∈ s, (a == '\\') = false) →
    expandTemplateGo g0 g1 g2 fuel s = some s := by
  induction s with
  | nil => intro fuel _ _; cases fuel <;> rfl
  | cons c cs ih =>
    intro fuel hlen h
    cases fuel with
    | zero => simp at hlen
    | succ f =>
      have hc : (c == '\\') = false := h c (by simp)
      have hp : parseTemplateTok (c :: cs) = .lit [c] cs := by
        simp [parseTemplateTok, hc]
      rw [expandTemplateGo, hp]
      dsimp only
      rw [ih f (by simpa using hlen) (fun a ha => h a (by simp [ha]))]
      rfl

/-- A backslash-free replacement template expands to itself. -/
theorem expandTemplate_no_backslash (g0 g1 g2 t : List Char)
    (h : ∀ a ∈ t, (a == '\\') = false) : expandTemplate g0 g1 g2 t = some t :=
  expandTemplateGo_no_backslash g0 g1 g2 t t.length le_rfl h

/-- The Python slice of an empty list is empty. -/
theorem pyTake_nil (n : Int) : pyTake n ([] : List (List Char)) = [] := by
  simp [pyTake]

/-- Splitting newline-free text never splits. -/
theorem splitlinesAux_no_newline (rest : List Char) : ∀ acc : List Char,
    (∀ a ∈ rest, (a == '\n') = false) → splitlinesAux acc rest = [acc.reverse ++ rest] := by
  induction rest with
  | nil => intro acc _; simp [splitlinesAux]
  | cons c cs ih =>
    intro acc h
    have hc : ¬ (c = '\n') := by simpa using h c (by simp)
    rw [splitlinesAux]
    simp only [hc, if_false]
    rw [ih (c :: acc) (fun a ha => h a (by simp [ha]))]
    simp

/-- A non-empty newline-free text is a single line. -/
theorem splitlinesL_single (c : Char) (rest : List Char)
    (h : ∀ a ∈ c :: rest, (a == '\n') = false) : splitlinesL (c :: rest) = [c :: rest] := by
  rw [splitlinesL]
  simpa using splitlinesAux_no_newline (c :: rest) [] h

/-- Dropping whitespace from text ending in a non-space character keeps
that character at the head after reversal. -/
theorem dropWhile_append_single (c : Char) (h : isSpaceChar c = false) (l : List Char) :
    ∃ t, ((l ++ [c]).dropWhile isSpaceChar).reverse = c :: t := by
  induction l with
  | nil => exact ⟨[], by simp [List.dropWhile_cons, h]⟩
  | cons a l2 ih =>
    by_cases ha : isSpaceChar a = true
    · simpa [List.dropWhile_cons, ha] using ih
    · refine ⟨l2.reverse ++ [a], ?_⟩
      simp [List.dropWhile_cons, ha]

/-- Stripping text that starts with a non-space character keeps that
character first. -/
theorem stripL_cons_head (c : Char) (rest : List Char) (h : isSpaceChar c = false) :
    ∃ t, stripL (c :: rest) = c :: t := by
  have e1 : (c :: rest).dropWhile isSpaceChar = c :: rest := by
    simp [List.dropWhile_cons, h]
  simp only [stripL, e1, List.reverse_cons]
  exact dropWhile_append_single c h rest.reverse

/-- A line not starting with the letter n cannot open a namespace. -/
theorem nsMatch_none_of_head (c : Char) (t : List Char) (h : ('n' == c) = false) :
    nsMatch (c :: t) = none := by
  simp [nsMatch, dropLit, isPrefixL, h]

/-- For a newline-free file whose first character is neither whitespace
nor the letter n, and whose single line carries the constructor anchor,
the resolver finds no enclosing namespace. -/
theorem findEnclosingNamespace_single_line (cn : List Char) (c : Char) (rest : List Char)
    (hnl : ∀ a ∈ c :: rest, (a == '\n') = false)
    (hsp : isSpaceChar c = false) (hn : ('n' == c) = false)
    (hanchor : searchCtorRef cn (c :: rest) = true) :
    findEnclosingNamespace (c :: rest) cn = [] := by
  obtain ⟨t, ht⟩ := stripL_cons_head c rest hsp
  rw [findEnclosingNamespace, splitlinesL_single c rest hnl]
  simp only [List.findIdx?_cons, hanchor, if_true, List.take_succ_cons, List.take_nil]
  rw [nsScan]
  simp only [ht, nsMatch_none_of_head c t hn, nsScan]
  split <;> simp [pyTake]

/-- The rewriter's constructor regex at the head of a file of the form
`Foo::Foo(<origArgs>) : LifecycleNode(<lifeArgs>) {}` captures the
signature and the initializer tail. -/
theorem matchCtorDef_lifecycle (origArgs lifeArgs : List Char)
    (h1 : ∀ a ∈ origArgs, (a == ')') = false)
    (h2 : ∀ a ∈ lifeArgs, (a == '\x7b') = false) :
    matchCtorDefAt ("Foo".data)
      ('F' :: 'o' :: 'o' :: ':' :: ':' :: 'F' :: 'o' :: 'o' :: '(' ::
        (origArgs ++ ')' :: ' ' :: ':' :: ' ' :: 'L' :: 'i' :: 'f' :: 'e' :: 'c' :: 'y' :: 'c' :: 'l' :: 'e' ::
          'N' :: 'o' :: 'd' :: 'e' :: '(' :: (lifeArgs ++ [')', ' ', '\x7b', '\x7d'])))
      = some ('F' :: 'o' :: 'o' :: ':' :: ':' :: 'F' :: 'o' :: 'o' :: '(' :: (origArgs ++ [')']),
              ' ' :: ':' :: ' ' :: 'L' :: 'i' :: 'f' :: 'e' :: 'c' :: 'y' :: 'c' :: 'l' :: 'e' ::
                'N' :: 'o' :: 'd' :: 'e' :: '(' :: (lifeArgs ++ [')', ' ']),
              ['\x7b', '\x7d']) := by
  have h1b : ∀ a ∈ origArgs, (fun c => !(c == ')')) a = true := by
    intro a ha; simp [h1 a ha]
  have h2b : ∀ a ∈ lifeArgs, (fun c => !(c == '\x7b')) a = true := by
    intro a ha; simp [h2 a ha]
  have eF : ("Foo".data) = ['F', 'o', 'o'] := rfl
  unfold matchCtorDefAt
  rw [eF]
  simp [dropLit_cons_cons, dropLit_nil, List.takeWhile_cons, List.dropWhile_cons,
    takeWhile_append_all _ _ _ h1b, dropWhile_append_all _ _ _ h1b,
    takeWhile_append_all _ _ _ h2b, dropWhile_append_all _ _ _ h2b,
    isSpaceChar]

/-- The class's constructor anchor is present at the head of such a file. -/
theorem matchCtorRef_lifecycle (origArgs lifeArgs : List Char) :
    matchCtorRefAt ("Foo".data)
      ('F' :: 'o' :: 'o' :: ':' :: ':' :: 'F' :: 'o' :: 'o' :: '(' ::
        (origArgs ++ ')' :: ' ' :: ':' :: ' ' :: 'L' :: 'i' :: 'f' :: 'e' :: 'c' :: 'y' :: 'c' :: 'l' :: 'e' ::
          'N' :: 'o' :: 'd' :: 'e' :: '(' :: (lifeArgs ++ [')', ' ', '\x7b', '\x7d']))) = true := by
  have eF : ("Foo".data) = ['F', 'o', 'o'] := rfl
  unfold matchCtorRefAt
  rw [eF]
  simp [dropLit_cons_cons, dropLit_nil, List.dropWhile_cons, isSpaceChar]

/-- The anchor search succeeds on such a file. -/
theorem searchCtorRef_lifecycle (origArgs lifeArgs : List Char) :
    searchCtorRef ("Foo".data)
      ('F' :: 'o' :: 'o' :: ':' :: ':' :: 'F' :: 'o' :: 'o' :: '(' ::
        (origArgs ++ ')' :: ' ' :: ':' :: ' ' :: 'L' :: 'i' :: 'f' :: 'e' :: 'c' :: 'y' :: 'c' :: 'l' :: 'e' ::
          'N' :: 'o' :: 'd' :: 'e' :: '(' :: (lifeArgs ++ [')', ' ', '\x7b', '\x7d']))) = true := by
  rw [searchCtorRef, searchCtorRefGo, matchCtorRef_lifecycle origArgs lifeArgs]
  simp

/-- The leftmost constructor-definition match on such a file is at the
very start, with empty preceding text. -/
theorem searchCtorDef_lifecycle (origArgs lifeArgs : List Char)
    (h1 : ∀ a ∈ origArgs, (a == ')') = false)
    (h2 : ∀ a ∈ lifeArgs, (a == '\x7b') = false) :
    searchCtorDef ("Foo".data)
      ('F' :: 'o' :: 'o' :: ':' :: ':' :: 'F' :: 'o' :: 'o' :: '(' ::
        (origArgs ++ ')' :: ' ' :: ':' :: ' ' :: 'L' :: 'i' :: 'f' :: 'e' :: 'c' :: 'y' :: 'c' :: 'l' :: 'e' ::
          'N' :: 'o' :: 'd' :: 'e' :: '(' :: (lifeArgs ++ [')', ' ', '\x7b', '\x7d'])))
      = some ([], 'F' :: 'o' :: 'o' :: ':' :: ':' :: 'F' :: 'o' :: 'o' :: '(' :: (origArgs ++ [')']),
              ' ' :: ':' :: ' ' :: 'L' :: 'i' :: 'f' :: 'e' :: 'c' :: 'y' :: 'c' :: 'l' :: 'e' ::
                'N' :: 'o' :: 'd' :: 'e' :: '(' :: (lifeArgs ++ [')', ' ']),
              ['\x7b', '\x7d']) := by
  rw [searchCtorDef, searchCtorDefGo, matchCtorDef_lifecycle origArgs lifeArgs h1 h2]
  rfl

/-- The delegating branch of the discoverer's pattern is dead code: its
final backreference is to a group of the other alternative. -/
theorem matchDiscover2At_eq_none (s : List Char) : matchDiscover2At s = none := by
  unfold matchDiscover2At
  dsimp only [matchBackref]
  repeat' split
  all_goals rfl

/-- C1: the spec says a delegating constructor line
`ClassName::ClassName(<params>) : ClassName(` yields a candidate just as
a direct base-class-node line does, but the second regex alternative
backreferences group 1 of the first alternative, which is unset whenever
the second alternative is tried, so in Python's regex engine the branch
never matches: a file holding only a delegating constructor yields no
candidate, while the direct form does yield one. -/
theorem c1_delegating_constructor_yields_no_candidate :
    (∀ s, matchDiscover2At s = none) ∧
    findCtorsInFile ("Foo::Foo(int x) : Foo(0) \x7b\x7d".data) = [] ∧
    findCtorsInFile ("Bar::Bar() : Node(\"b\") \x7b\x7d".data) = [("Bar".data)] :=
  ⟨matchDiscover2At_eq_none, by decide, by decide⟩

/-- C2: applying the full conversion to the demo candidate twice is not
idempotent.  After the first run the implementation file, header and
entry point have their converted contents; the second run leaves the
implementation file and entry point alone (the idempotence guard fires),
but the header declaration regex matches its own replacement text and a
second `explicit ` prefix is inserted, so the header changes again. -/
theorem c2_second_conversion_changes_header :
    readFile fsDemoOnce pkgSrcDir ("foo.cpp".data) =
      some ("Foo::Foo(const rclcpp::NodeOptions & options) : Node(\"f\", options) \x7b\x7d\n\n\n#include \"rclcpp_components/register_node_macro.hpp\"\nRCLCPP_COMPONENTS_REGISTER_NODE(Foo)\n".data) ∧
    readFile fsDemoOnce pkgSrcDir ("main.cpp".data) =
      some ("auto n = std::make_shared<Foo>(rclcpp::NodeOptions\x7b\x7d);\n".data) ∧
    readFile fsDemoOnce pkgNestedIncludeDir ("foo.hpp".data) =
      some ("class Foo \x7b\npublic:\n    explicit Foo(const rclcpp::NodeOptions & options);\n\x7d;\n".data) ∧
    readFile fsDemoTwice pkgSrcDir ("foo.cpp".data) = readFile fsDemoOnce pkgSrcDir ("foo.cpp".data) ∧
    readFile fsDemoTwice pkgSrcDir ("main.cpp".data) = readFile fsDemoOnce pkgSrcDir ("main.cpp".data) ∧
    readFile fsDemoTwice pkgNestedIncludeDir ("foo.hpp".data) =
      some ("class Foo \x7b\npublic:\n    explicit   explicit Foo(const rclcpp::NodeOptions & options);\n\x7d;\n".data) ∧
    fsDemoTwice ≠ fsDemoOnce :=
  ⟨by decide, by decide, by decide, by decide, by decide, by decide, by decide⟩

/-- C3 counterexample: on the "not found" path (guard not fired, no
constructor signature in the file) the function returns early; nothing is
appended at end-of-file and the file system is untouched, contradicting
the claim that the registration directive is still appended there. -/
theorem c3_not_found_appends_nothing_counterexample :
    updateNodeConstructor ("Foo".data) ("int x;".data) = .notFound ∧
    updateNodeFs ("Foo".data) pkgSrcDir ("bar.cpp".data)
      [⟨pkgSrcDir, ("bar.cpp".data), ("int x;".data)⟩] =
      [⟨pkgSrcDir, ("bar.cpp".data), ("int x;".data)⟩] ∧
    containsL ("RCLCPP_COMPONENTS_REGISTER_NODE".data) ("int x;".data) = false :=
  ⟨by decide, by decide, by decide⟩

/-- C3 amended: when the constructor pattern for the class is not found
(and the top idempotence guard did not fire), the rewriter mutates
nothing at all — the registration directive and macro include are
appended only on the successful-rewrite path. -/
theorem c3_not_found_no_mutation (cn : List Char) (srcDir : List (List Char))
    (cppName : List Char) (fs : FS) (content : List Char)
    (hread : readFile fs srcDir cppName = some content)
    (hctor : updateNodeConstructor cn content = .notFound) :
    updateNodeFs cn srcDir cppName fs = fs := by
  simp only [updateNodeFs, hread, hctor]

/-- C3 witness: a concrete package file without the constructor pattern
is left untouched. -/
theorem c3_not_found_no_mutation_witness :
    updateNodeFs ("Foo".data) pkgSrcDir ("baz.cpp".data)
      [⟨pkgSrcDir, ("baz.cpp".data), ("void f();\n".data)⟩] =
      [⟨pkgSrcDir, ("baz.cpp".data), ("void f();\n".data)⟩] :=
  c3_not_found_no_mutation ("Foo".data) pkgSrcDir ("baz.cpp".data) _ ("void f();\n".data)
    (by decide) (by decide)

/-- C4 counterexample: on an input whose first line is a stray closing
brace the tracked depth becomes `-1` after that line, yet the namespace
computation is not abandoned: the resolver returns `a::`, not the empty
chain the claim requires for inputs where the depth goes negative. -/
theorem c4_negative_depth_counterexample :
    (nsScan [] 0 [("\x7d".data)]).2 = -1 ∧
    findEnclosingNamespace
      ("\x7d\nnamespace a \x7b\nnamespace b \x7b\nA::A() : Node(\"x\")".data) ("A".data) =
      ("a::".data) ∧
    ("a::".data) ≠ ([] : List Char) :=
  ⟨by decide, by decide, by decide⟩

/-- C4 amended: the brace depth can go negative (here `-1` after the
first line) and no abandonment occurs — the scan continues, truncating
the stack with Python's slice semantics, and the resolver can still
return a non-empty chain. -/
theorem c4_negative_depth_scan_continues :
    (nsScan [] 0 [("\x7d".data)]).2 = -1 ∧
    findEnclosingNamespace
      ("\x7d\nnamespace x \x7b\nnamespace y \x7b\nnamespace z \x7b\nB::B() : Node(\"q\")".data)
      ("B".data) = ("x::y::".data) :=
  ⟨by decide, by decide⟩

/-- C5 counterexample: when the two namespaces open on a single line
(`namespace a { namespace b {`), only the line-initial `namespace a` is
recognized (the code anchors the namespace pattern at the start of the
line), so the resolver returns `a::`, not `a::b::`. -/
theorem c5_same_line_namespaces_counterexample :
    findEnclosingNamespace
      ("namespace a \x7b namespace b \x7b\nFoo::Foo() : Node(\"x\")".data) ("Foo".data) =
      ("a::".data) ∧
    ("a::".data) ≠ ("a::b::".data) :=
  ⟨by decide, by decide⟩

/-- C5 amended: for a constructor nested in namespace `a` then `b`, the
resolver returns `a::b::` provided each `namespace` keyword begins its
own line — with the opening brace on the same line or on a later
line. -/
theorem c5_namespace_chain_per_line :
    findEnclosingNamespace
      ("namespace a \x7b\nnamespace b \x7b\nFoo::Foo() : Node(\"x\")".data) ("Foo".data) =
      ("a::b::".data) ∧
    findEnclosingNamespace
      ("namespace a\n\x7b\nnamespace b\n\x7b\nFoo::Foo() : Node(\"x\")".data) ("Foo".data) =
      ("a::b::".data) :=
  ⟨by decide, by decide⟩

/-- C6: rewriting `Foo::Foo(int x) : Node("foo_node")` produces a
constructor whose parameter list is exactly the single options parameter
and whose base-node initializer call carries exactly two arguments — the
original argument followed by the options value. -/
theorem c6_signature_rewrite :
    updateNodeConstructor ("Foo".data) ("Foo::Foo(int x) : Node(\"foo_node\")\n\x7b\n\x7d\n".data) =
      .updated ("Foo::Foo(const rclcpp::NodeOptions & options) : Node(\"foo_node\", options)\n\x7b\n\x7d\n\n\n#include \"rclcpp_components/register_node_macro.hpp\"\nRCLCPP_COMPONENTS_REGISTER_NODE(Foo)\n".data) ∧
    firstCallArgs ("Foo::Foo".data)
      ("Foo::Foo(const rclcpp::NodeOptions & options) : Node(\"foo_node\", options)\n\x7b\n\x7d\n\n\n#include \"rclcpp_components/register_node_macro.hpp\"\nRCLCPP_COMPONENTS_REGISTER_NODE(Foo)\n".data) =
      some ("const rclcpp::NodeOptions & options".data) ∧
    countArgs ("const rclcpp::NodeOptions & options".data) = 1 ∧
    firstCallArgs ("Node".data)
      ("Foo::Foo(const rclcpp::NodeOptions & options) : Node(\"foo_node\", options)\n\x7b\n\x7d\n\n\n#include \"rclcpp_components/register_node_macro.hpp\"\nRCLCPP_COMPONENTS_REGISTER_NODE(Foo)\n".data) =
      some ("\"foo_node\", options".data) ∧
    countArgs ("\"foo_node\", options".data) = 2 :=
  ⟨by decide, by decide, by decide, by decide, by decide⟩

/-- A string with a verified prefix splits as that prefix plus the rest. -/
theorem append_drop_of_isPrefixL (p : List Char) : ∀ s : List Char,
    isPrefixL p s = true → s = p ++ s.drop p.length := by
  induction p with
  | nil => intro s _; simp
  | cons c cs ih =>
    intro s hp
    cases s with
    | nil => simp [isPrefixL] at hp
    | cons d t =>
      rw [isPrefixL] at hp
      have h1 : c = d := by
        cases hcd : c == d
        · rw [hcd] at hp; simp at hp
        · exact eq_of_beq hcd
      have h2 : isPrefixL cs t = true := by
        cases hct : isPrefixL cs t
        · rw [hct] at hp; simp at hp
        · rfl
      subst h1
      simpa [List.cons_append] using ih t h2

/-- When `dropLit` succeeds the input is the literal followed by the remainder. -/
theorem dropLit_eq_append (p s r : List Char) (h : dropLit p s = some r) : s = p ++ r := by
  rw [dropLit] at h
  by_cases hp : isPrefixL p s = true
  · rw [if_pos hp] at h
    obtain rfl : s.drop p.length = r := by simpa using h
    exact append_drop_of_isPrefixL p s hp
  · rw [if_neg hp] at h; simp at h

/-- Whenever the call-site matcher succeeds, the input decomposes as the
literal `std::make_shared<`, the captured run, `>`, optional whitespace,
`(`, optional whitespace, `)` and the remainder: the matched call always
has an empty (whitespace-only) argument list. -/
theorem matchMakeSharedAt_decomp (cn s run rest : List Char)
    (h : matchMakeSharedAt cn s = some (run, rest)) :
    ∃ ws1 ws2 : List Char, (∀ a ∈ ws1, isSpaceChar a = true) ∧ (∀ a ∈ ws2, isSpaceChar a = true) ∧
      s = ("std::make_shared<".data) ++
        (run ++ ('>' :: (ws1 ++ ('(' :: (ws2 ++ (')' :: rest)))))) := by
  rw [matchMakeSharedAt] at h
  cases h1 : dropLit ("std::make_shared<".data) s with
  | none => rw [h1] at h; exact absurd h (by simp)
  | some s1 =>
    rw [h1] at h
    dsimp only at h
    by_cases hsf : (!(cn.isSuffixOf (s1.takeWhile (fun c => isWordChar c || c == ':')))) = true
    · rw [if_pos hsf] at h; exact absurd h (by simp)
    · rw [if_neg hsf] at h
      cases h3 : dropLit (">".data) (s1.dropWhile (fun c => isWordChar c || c == ':')) with
      | none => rw [h3] at h; exact absurd h (by simp)
      | some s3 =>
        rw [h3] at h
        dsimp only at h
        cases h5 : dropLit ("(".data) (s3.dropWhile isSpaceChar) with
        | none => rw [h5] at h; exact absurd h (by simp)
        | some s5 =>
          rw [h5] at h
          dsimp only at h
          cases h7 : dropLit (")".data) (s5.dropWhile isSpaceChar) with
          | none => rw [h7] at h; exact absurd h (by simp)
          | some s7 =>
            rw [h7] at h
            dsimp only at h
            obtain ⟨hrun, hrest⟩ : s1.takeWhile (fun c => isWordChar c || c == ':') = run ∧ s7 = rest := by
              simpa using h
            refine ⟨s3.takeWhile isSpaceChar, s5.takeWhile isSpaceChar,
              fun a ha => List.mem_takeWhile_imp ha, fun a ha => List.mem_takeWhile_imp ha, ?_⟩
            have e1 : s = ("std::make_shared<".data) ++ s1 := dropLit_eq_append _ _ _ h1
            have e2 : s1 = run ++ s1.dropWhile (fun c => isWordChar c || c == ':') := by
              rw [← hrun]; exact (List.takeWhile_append_dropWhile _ _).symm
            have e3 : s1.dropWhile (fun c => isWordChar c || c == ':') = '>' :: s3 := by
              have := dropLit_eq_append _ _ _ h3; simpa using this
            have e4 : s3 = s3.takeWhile isSpaceChar ++ s3.dropWhile isSpaceChar :=
              (List.takeWhile_append_dropWhile _ _).symm
            have e5 : s3.dropWhile isSpaceChar = '(' :: s5 := by
              have := dropLit_eq_append _ _ _ h5; simpa using this
            have e6 : s5 = s5.takeWhile isSpaceChar ++ s5.dropWhile isSpaceChar :=
              (List.takeWhile_append_dropWhile _ _).symm
            have e7 : s5.dropWhile isSpaceChar = ')' :: s7 := by
              have := dropLit_eq_append _ _ _ h7; simpa using this
            have goal3 : s3 = s3.takeWhile isSpaceChar ++
                ('(' :: (s5.takeWhile isSpaceChar ++ (')' :: s7))) := by
              conv_rhs => rw [← e7, ← e6, ← e5, ← e4]
            rw [e1, e2, e3, ← hrest]
            conv_lhs => rw [goal3]

/-- When the call-site pattern occurs nowhere, the substitution loop
returns its input unchanged. -/
theorem subMakeSharedGo_id (cn : List Char) (s : List Char) : ∀ fuel : Nat,
    s.length ≤ fuel → searchMakeShared cn s = false → subMakeSharedGo cn fuel s = s := by
  induction s with
  | nil => intro fuel _ _; cases fuel <;> rfl
  | cons c cs ih =>
    intro fuel hlen hsearch
    cases fuel with
    | zero => simp at hlen
    | succ f =>
      rw [searchMakeShared] at hsearch
      have h1 : matchMakeSharedAt cn (c :: cs) = none := by
        cases hp : matchMakeSharedAt cn (c :: cs) with
        | none => rfl
        | some v => rw [hp] at hsearch; simp at hsearch
      have h2 : searchMakeShared cn cs = false := by
        cases hp : searchMakeShared cn cs <;> simp [hp] at hsearch ⊢
      rw [subMakeSharedGo, h1]
      dsimp only
      rw [ih f (by simpa using hlen) h2]

/-- At a matched position the substitution loop emits the rewritten call
`std::make_shared<run>(rclcpp::NodeOptions\x7b\x7d)` and continues after the
matched occurrence. -/
theorem subMakeSharedGo_step (cn run rest : List Char) (c : Char) (cs : List Char) (fuel : Nat)
    (h : matchMakeSharedAt cn (c :: cs) = some (run, rest)) :
    subMakeSharedGo cn (fuel + 1) (c :: cs) =
      ("std::make_shared<".data) ++ (run ++ ((">(rclcpp::NodeOptions\x7b\x7d)".data) ++
        subMakeSharedGo cn fuel rest)) := by
  rw [subMakeSharedGo, h]
  dsimp only
  simp [List.append_assoc]

/-- A call whose argument list starts with a non-space character other
than `)` is not matched: occurrences with non-empty arguments are left
alone by the substitution. -/
theorem matchMakeSharedAt_nonempty_args (cn run ws1 ws2 rest : List Char) (c : Char)
    (hrun : ∀ a ∈ run, (fun x => isWordChar x || x == ':') a = true)
    (hws1 : ∀ a ∈ ws1, isSpaceChar a = true)
    (hws2 : ∀ a ∈ ws2, isSpaceChar a = true)
    (hc : isSpaceChar c = false) (hc2 : (c == ')') = false) :
    matchMakeSharedAt cn (("std::make_shared<".data) ++
      (run ++ ('>' :: (ws1 ++ ('(' :: (ws2 ++ (c :: rest))))))) = none := by
  have hc3 : (')' == c) = false := by
    simp only [beq_eq_false_iff_ne] at hc2 ⊢
    exact fun e => hc2 e.symm
  rw [matchMakeSharedAt, dropLit_self]
  dsimp only
  have hrw1 : List.takeWhile (fun x => isWordChar x || x == ':')
      (run ++ ('>' :: (ws1 ++ ('(' :: (ws2 ++ (c :: rest)))))) = run := by
    rw [takeWhile_append_all _ _ _ hrun]
    simp [List.takeWhile_cons, isWordChar]
  have hrw2 : List.dropWhile (fun x => isWordChar x || x == ':')
      (run ++ ('>' :: (ws1 ++ ('(' :: (ws2 ++ (c :: rest)))))) =
      '>' :: (ws1 ++ ('(' :: (ws2 ++ (c :: rest)))) := by
    rw [dropWhile_append_all _ _ _ hrun]
    simp [List.dropWhile_cons, isWordChar]
  rw [hrw1, hrw2]
  split
  · rfl
  · rw [dropLit_cons_cons, dropLit_nil]
    dsimp only
    rw [dropWhile_append_all _ _ _ hws1]
    rw [show List.dropWhile isSpaceChar ('(' :: (ws2 ++ (c :: rest))) =
      '(' :: (ws2 ++ (c :: rest)) from by simp [List.dropWhile_cons, isSpaceChar]]
    rw [dropLit_cons_cons, dropLit_nil]
    dsimp only
    rw [dropWhile_append_all _ _ _ hws2]
    rw [show List.dropWhile isSpaceChar (c :: rest) = c :: rest from by
      simp [List.dropWhile_cons, hc]]
    simp [dropLit, isPrefixL, hc3]

/-- When the pattern occurs somewhere, the substituted content differs
from the original (the rewritten occurrence forces a first difference
inside the matched span). -/
theorem subMakeSharedGo_ne (cn : List Char) (s : List Char) : ∀ fuel : Nat,
    s.length ≤ fuel → searchMakeShared cn s = true → subMakeSharedGo cn fuel s ≠ s := by
  induction s with
  | nil => intro fuel _ hs; simp [searchMakeShared] at hs
  | cons c cs ih =>
    intro fuel hlen hsearch
    cases fuel with
    | zero => simp at hlen
    | succ f =>
      rw [searchMakeShared] at hsearch
      cases hm : matchMakeSharedAt cn (c :: cs) with
      | some v =>
        obtain ⟨run, rest⟩ := v
        obtain ⟨ws1, ws2, hws1, hws2, hdec⟩ := matchMakeSharedAt_decomp cn (c :: cs) run rest hm
        rw [subMakeSharedGo, hm]
        dsimp only
        intro heq
        rw [hdec] at heq
        simp only [List.append_assoc] at heq
        have h2 := List.append_cancel_left (List.append_cancel_left heq)
        have ex : ((">(rclcpp::NodeOptions\x7b\x7d)".data) : List Char) ++ subMakeSharedGo cn f rest =
            '>' :: '(' :: 'r' :: (("clcpp::NodeOptions\x7b\x7d)".data) ++ subMakeSharedGo cn f rest) := rfl
        rw [ex] at h2
        simp only [List.cons.injEq, true_and] at h2
        cases ws1 with
        | cons w t =>
          simp only [List.cons_append, List.cons.injEq] at h2
          have hw := hws1 w (by simp)
          rw [← h2.1] at hw
          exact absurd hw (by decide)
        | nil =>
          simp only [List.nil_append, List.cons.injEq, true_and] at h2
          cases ws2 with
          | cons w t =>
            simp only [List.cons_append, List.cons.injEq] at h2
            have hw := hws2 w (by simp)
            rw [← h2.1] at hw
            exact absurd hw (by decide)
          | nil =>
            simp only [List.nil_append, List.cons.injEq] at h2
            exact absurd h2.1 (by decide)
      | none =>
        rw [hm] at hsearch
        simp only [Option.isSome_none, Bool.false_or] at hsearch
        rw [subMakeSharedGo, hm]
        dsimp only
        intro heq
        have h2 : subMakeSharedGo cn f cs = cs := by
          simpa using heq
        exact ih f (by simpa using hlen) hsearch h2

/-- C7: universally over class names and file contents — (1) each matched
zero-argument occurrence `std::make_shared<run>()` is rewritten in place to
`std::make_shared<run>(rclcpp::NodeOptions\x7b\x7d)` with scanning resuming after
it, (2) the inserted argument list holds exactly one argument, (3) an
occurrence whose argument list starts with a real (non-space, non-`)`)
character is not matched, hence left unchanged, (4) a file is written back
(`some`) iff the pattern occurs, (5) with no occurrence the content is
returned verbatim, and (6) every written-back content differs from the
original; finally the two concrete checks: the qualified and unqualified
zero-argument calls gain the options argument while `(42)` survives, and
the `(42)`-only file is not written. -/
theorem c7_call_site_rewrite :
    (∀ cn run rest : List Char, ∀ c : Char, ∀ cs : List Char, ∀ fuel : Nat,
      matchMakeSharedAt cn (c :: cs) = some (run, rest) →
      subMakeSharedGo cn (fuel + 1) (c :: cs) =
        ("std::make_shared<".data) ++ (run ++ ((">(rclcpp::NodeOptions\x7b\x7d)".data) ++
          subMakeSharedGo cn fuel rest))) ∧
    countArgs ("rclcpp::NodeOptions\x7b\x7d".data) = 1 ∧
    (∀ cn run ws1 ws2 rest : List Char, ∀ c : Char,
      (∀ a ∈ run, (isWordChar a || a == ':') = true) →
      (∀ a ∈ ws1, isSpaceChar a = true) →
      (∀ a ∈ ws2, isSpaceChar a = true) →
      isSpaceChar c = false → (c == ')') = false →
      matchMakeSharedAt cn (("std::make_shared<".data) ++
        (run ++ ('>' :: (ws1 ++ ('(' :: (ws2 ++ (c :: rest))))))) = none) ∧
    (∀ cn content : List Char,
      updateMainFile cn content = none ↔ searchMakeShared cn content = false) ∧
    (∀ cn content : List Char, searchMakeShared cn content = false →
      subMakeShared cn content = content) ∧
    (∀ cn content u : List Char, updateMainFile cn content = some u → u ≠ content) ∧
    updateMainFile ("Foo".data)
      ("auto n = std::make_shared<Foo>();\nauto q = std::make_shared<demo::Foo>( );\nauto m = std::make_shared<Foo>(42);\n".data) =
      some ("auto n = std::make_shared<Foo>(rclcpp::NodeOptions\x7b\x7d);\nauto q = std::make_shared<demo::Foo>(rclcpp::NodeOptions\x7b\x7d);\nauto m = std::make_shared<Foo>(42);\n".data) ∧
    updateMainFile ("Foo".data) ("auto m = std::make_shared<Foo>(42);\n".data) = none := by
  refine ⟨fun cn run rest c cs fuel h => subMakeSharedGo_step cn run rest c cs fuel h,
    by decide,
    fun cn run ws1 ws2 rest c h1 h2 h3 h4 h5 =>
      matchMakeSharedAt_nonempty_args cn run ws1 ws2 rest c h1 h2 h3 h4 h5,
    ?_, ?_, ?_, by decide, by decide⟩
  · intro cn content
    rw [updateMainFile]
    cases hs : searchMakeShared cn content <;> simp [hs]
  · intro cn content h
    exact subMakeSharedGo_id cn content content.length le_rfl h
  · intro cn content u h
    rw [updateMainFile] at h
    cases hs : searchMakeShared cn content with
    | false => rw [hs] at h; simp at h
    | true =>
      rw [hs] at h
      have hu : subMakeShared cn content = u := by simpa using h
      rw [← hu]
      exact subMakeSharedGo_ne cn content content.length le_rfl hs

/-- C7 witness: the single-call file is written back with the options
argument, and (by the claim theorem) that written content differs from the
original. -/
theorem c7_call_site_rewrite_witness :
    updateMainFile ("Foo".data) ("auto n = std::make_shared<Foo>();\n".data) =
      some ("auto n = std::make_shared<Foo>(rclcpp::NodeOptions\x7b\x7d);\n".data) ∧
    ("auto n = std::make_shared<Foo>(rclcpp::NodeOptions\x7b\x7d);\n".data) ≠
      ("auto n = std::make_shared<Foo>();\n".data) :=
  ⟨by decide,
   c7_call_site_rewrite.2.2.2.2.2.1 ("Foo".data)
     ("auto n = std::make_shared<Foo>();\n".data)
     ("auto n = std::make_shared<Foo>(rclcpp::NodeOptions\x7b\x7d);\n".data)
     (by decide)⟩

/-- C8: the header search tries the implementation directory first, then
the package `include` directory, then the nested include directory; the
first candidate wins, and when no candidate exists anywhere the step
reports not-found and leaves the file system (hence the already
converted implementation file) unchanged. -/
theorem c8_header_search_order_and_not_found (cn : List Char)
    (srcDir : List (List Char)) (cppName : List Char) (fs : FS) :
    (headerCandidates fs srcDir cppName = [] →
      updateHeaderFs cn srcDir cppName fs = (.noHeader, fs)) ∧
    globHeader fs srcDir (stemOf cppName) <+: headerCandidates fs srcDir cppName ∧
    (∀ h t, globHeader fs srcDir (stemOf cppName) = h :: t →
      (headerCandidates fs srcDir cppName).head? = some h) := by
  refine ⟨fun hnone => ?_, ⟨_, rfl⟩, fun h t hsrc => ?_⟩
  · simp only [updateHeaderFs, hnone]
  · simp [headerCandidates, hsrc]

/-- C8 witness: a package holding only the implementation file has no
header candidate in any of the three locations, so the header step
reports not-found and changes nothing. -/
theorem c8_not_found_witness :
    updateHeaderFs ("Foo".data) pkgSrcDir ("foo.cpp".data)
      [⟨pkgSrcDir, ("foo.cpp".data), ("Foo::Foo() : Node(\"f\") \x7b\x7d\n".data)⟩] =
      (.noHeader, [⟨pkgSrcDir, ("foo.cpp".data), ("Foo::Foo() : Node(\"f\") \x7b\x7d\n".data)⟩]) :=
  (c8_header_search_order_and_not_found ("Foo".data) pkgSrcDir ("foo.cpp".data) _).1 (by decide)

/-- C9: the rewriter's idempotence guard is pure token presence — any
file containing the class's scope token and the string NodeOptions
anywhere is skipped without mutation, whatever the rest of the file
looks like. -/
theorem c9_guard_on_token_presence (cn content : List Char)
    (h1 : containsL (cn ++ ("::".data)) content = true)
    (h2 : containsL ("NodeOptions".data) content = true) :
    updateNodeConstructor cn content = .skippedAlready := by
  simp [updateNodeConstructor, h1, h2]

/-- C9 witness: a file whose NodeOptions marker comes only from another,
already converted class still trips the guard for the unconverted class
Foo. -/
theorem c9_guard_witness :
    updateNodeConstructor ("Foo".data)
      ("Bar::Bar(const rclcpp::NodeOptions & options) : Node(\"b\", options) \x7b\x7d\nFoo::Foo() : Node(\"f\") \x7b\x7d\n".data) =
      .skippedAlready :=
  c9_guard_on_token_presence ("Foo".data) _ (by decide) (by decide)

/-- C10 counterexample: the claim fails when the LifecycleNode argument
text contains a backslash, because the rewritten constructor — which
embeds the initializer tail — is passed to `re.sub` as a replacement
template.  For `Foo::Foo(int x) : LifecycleNode("\1") {}` the `\1`
expands to the match's first group and the argument list becomes
`"Foo::Foo(int x)"`; for `LifecycleNode("a\d")` the tool aborts with
`re.error: bad escape`. -/
theorem c10_backslash_initializer_counterexample :
    updateNodeConstructor ("Foo".data)
      ("Foo::Foo(int x) : LifecycleNode(\"\\1\") \x7b\x7d".data) =
      .updated ("Foo::Foo(const rclcpp::NodeOptions & options) : LifecycleNode(\"Foo::Foo(int x)\") \x7b\x7d\n\n#include \"rclcpp_components/register_node_macro.hpp\"\nRCLCPP_COMPONENTS_REGISTER_NODE(Foo)\n".data) ∧
    containsL ("LifecycleNode(\"\\1\")".data)
      ("Foo::Foo(const rclcpp::NodeOptions & options) : LifecycleNode(\"Foo::Foo(int x)\") \x7b\x7d\n\n#include \"rclcpp_components/register_node_macro.hpp\"\nRCLCPP_COMPONENTS_REGISTER_NODE(Foo)\n".data) = false ∧
    updateNodeConstructor ("Foo".data)
      ("Foo::Foo(int x) : LifecycleNode(\"a\\d\") \x7b\x7d".data) = .subError :=
  ⟨by decide, by decide, by decide⟩

/-- C10 amended: for a constructor whose initializer invokes the base as
`LifecycleNode(<args>)` rather than `Node(<args>)`, and whose initializer
argument text is free of backslashes, the rewriter replaces the
parameter list with the single options parameter but leaves the
initializer's argument list unchanged — the options value is forwarded
only to initializer calls of the exact form `Node(...)`, and the word
boundary in that pattern excludes the Node inside LifecycleNode.
(With a backslash in the argument text, Python's template-escape
processing of the replacement rewrites or aborts instead — see the
counterexample.)  Stated for any parameter text without a closing
parenthesis or newline and any initializer argument text without a
brace, newline, backslash or embedded Node token; the file is not
already converted and does not already carry the registration
directive. -/
theorem c10_lifecycle_initializer_untouched (origArgs lifeArgs : List Char)
    (h1 : ')' ∉ origArgs) (h1n : '\n' ∉ origArgs)
    (h2 : '\x7b' ∉ lifeArgs) (h2n : '\n' ∉ lifeArgs) (h6 : '\\' ∉ lifeArgs)
    (h3 : containsL ("Node".data) (lifeArgs ++ (") ".data)) = false)
    (h4 : containsL ("NodeOptions".data)
      (("Foo::Foo(".data) ++ (origArgs ++ ((") : LifecycleNode(".data) ++ (lifeArgs ++ (") \x7b\x7d".data))))) = false)
    (h5 : containsL ("RCLCPP_COMPONENTS_REGISTER_NODE(Foo)".data)
      (("Foo::Foo(const rclcpp::NodeOptions & options) : LifecycleNode(".data) ++ (lifeArgs ++ (") \x7b\x7d".data))) = false) :
    updateNodeConstructor ("Foo".data)
      (("Foo::Foo(".data) ++ (origArgs ++ ((") : LifecycleNode(".data) ++ (lifeArgs ++ (") \x7b\x7d".data))))) =
    .updated ((("Foo::Foo(const rclcpp::NodeOptions & options) : LifecycleNode(".data) ++ (lifeArgs ++ (") \x7b\x7d".data))) ++
      ("\n\n#include \"rclcpp_components/register_node_macro.hpp\"\nRCLCPP_COMPONENTS_REGISTER_NODE(Foo)\n".data)) := by
  have econ : ("Foo::Foo(".data) ++ (origArgs ++ ((") : LifecycleNode(".data) ++ (lifeArgs ++ (") \x7b\x7d".data)))) =
      'F' :: 'o' :: 'o' :: ':' :: ':' :: 'F' :: 'o' :: 'o' :: '(' ::
        (origArgs ++ ')' :: ' ' :: ':' :: ' ' :: 'L' :: 'i' :: 'f' :: 'e' :: 'c' :: 'y' :: 'c' :: 'l' :: 'e' ::
          'N' :: 'o' :: 'd' :: 'e' :: '(' :: (lifeArgs ++ [')', ' ', '\x7b', '\x7d'])) := rfl
  rw [econ] at h4 ⊢
  have h1b : ∀ a ∈ origArgs, (a == ')') = false := by
    intro a ha
    simp only [beq_eq_false_iff_ne]
    exact ne_of_mem_of_not_mem ha h1
  have h2b : ∀ a ∈ lifeArgs, (a == '\x7b') = false := by
    intro a ha
    simp only [beq_eq_false_iff_ne]
    exact ne_of_mem_of_not_mem ha h2
  have hnl : ∀ a ∈ ('F' :: 'o' :: 'o' :: ':' :: ':' :: 'F' :: 'o' :: 'o' :: '(' ::
      (origArgs ++ ')' :: ' ' :: ':' :: ' ' :: 'L' :: 'i' :: 'f' :: 'e' :: 'c' :: 'y' :: 'c' :: 'l' :: 'e' ::
        'N' :: 'o' :: 'd' :: 'e' :: '(' :: (lifeArgs ++ [')', ' ', '\x7b', '\x7d']))), (a == '\n') = false := by
    intro a ha
    simp only [beq_eq_false_iff_ne]
    rintro rfl
    simp at ha
    rcases ha with h | h
    · exact h1n h
    · exact h2n h
  have hns : findEnclosingNamespace
      ('F' :: 'o' :: 'o' :: ':' :: ':' :: 'F' :: 'o' :: 'o' :: '(' ::
        (origArgs ++ ')' :: ' ' :: ':' :: ' ' :: 'L' :: 'i' :: 'f' :: 'e' :: 'c' :: 'y' :: 'c' :: 'l' :: 'e' ::
          'N' :: 'o' :: 'd' :: 'e' :: '(' :: (lifeArgs ++ [')', ' ', '\x7b', '\x7d']))) ("Foo".data) = [] :=
    findEnclosingNamespace_single_line ("Foo".data) 'F' _ hnl (by decide) (by decide)
      (searchCtorRef_lifecycle origArgs lifeArgs)
  have hsub : subNodeCall (' ' :: ':' :: ' ' :: 'L' :: 'i' :: 'f' :: 'e' :: 'c' :: 'y' :: 'c' :: 'l' :: 'e' ::
      'N' :: 'o' :: 'd' :: 'e' :: '(' :: (lifeArgs ++ [')', ' '])) =
      ' ' :: ':' :: ' ' :: 'L' :: 'i' :: 'f' :: 'e' :: 'c' :: 'y' :: 'c' :: 'l' :: 'e' ::
      'N' :: 'o' :: 'd' :: 'e' :: '(' :: (lifeArgs ++ [')', ' ']) :=
    subNodeCall_eq_self _ (searchNodeCall_lifecycle (lifeArgs ++ (") ".data)) h3)
  have hexp : expandTemplate
      (('F' :: 'o' :: 'o' :: ':' :: ':' :: 'F' :: 'o' :: 'o' :: '(' :: (origArgs ++ [')'])) ++
        (' ' :: ':' :: ' ' :: 'L' :: 'i' :: 'f' :: 'e' :: 'c' :: 'y' :: 'c' :: 'l' :: 'e' ::
          'N' :: 'o' :: 'd' :: 'e' :: '(' :: (lifeArgs ++ [')', ' '])))
      ('F' :: 'o' :: 'o' :: ':' :: ':' :: 'F' :: 'o' :: 'o' :: '(' :: (origArgs ++ [')']))
      (' ' :: ':' :: ' ' :: 'L' :: 'i' :: 'f' :: 'e' :: 'c' :: 'y' :: 'c' :: 'l' :: 'e' ::
        'N' :: 'o' :: 'd' :: 'e' :: '(' :: (lifeArgs ++ [')', ' ']))
      ((("Foo".data) ++ ("::".data) ++ ("Foo".data) ++ ("(const rclcpp::NodeOptions & options)".data)) ++
        (' ' :: ':' :: ' ' :: 'L' :: 'i' :: 'f' :: 'e' :: 'c' :: 'y' :: 'c' :: 'l' :: 'e' ::
          'N' :: 'o' :: 'd' :: 'e' :: '(' :: (lifeArgs ++ [')', ' ']))) =
      some ((("Foo".data) ++ ("::".data) ++ ("Foo".data) ++ ("(const rclcpp::NodeOptions & options)".data)) ++
        (' ' :: ':' :: ' ' :: 'L' :: 'i' :: 'f' :: 'e' :: 'c' :: 'y' :: 'c' :: 'l' :: 'e' ::
          'N' :: 'o' :: 'd' :: 'e' :: '(' :: (lifeArgs ++ [')', ' ']))) := by
    apply expandTemplate_no_backslash
    intro a ha
    simp only [beq_eq_false_iff_ne]
    rintro rfl
    simp at ha
    exact h6 ha
  rw [updateNodeConstructor, h4]
  simp only [Bool.and_false, Bool.false_eq_true, if_false]
  rw [searchCtorDef_lifecycle origArgs lifeArgs h1b h2b]
  simp only [hsub, hexp, hns]
  simp [List.append_assoc] at h5
  simp [List.append_assoc, h5]

/-- C10 witness: the concrete constructor
`Foo::Foo(int x) : LifecycleNode("foo") {}` is rewritten to take the
options parameter while the LifecycleNode argument list stays untouched. -/
theorem c10_lifecycle_initializer_witness :
    updateNodeConstructor ("Foo".data)
      (("Foo::Foo(".data) ++ (("int x".data) ++ ((") : LifecycleNode(".data) ++ (("\"foo\"".data) ++ (") \x7b\x7d".data))))) =
    .updated ((("Foo::Foo(const rclcpp::NodeOptions & options) : LifecycleNode(".data) ++ (("\"foo\"".data) ++ (") \x7b\x7d".data))) ++
      ("\n\n#include \"rclcpp_components/register_node_macro.hpp\"\nRCLCPP_COMPONENTS_REGISTER_NODE(Foo)\n".data)) :=
  c10_lifecycle_initializer_untouched ("int x".data) ("\"foo\"".data)
    (by decide) (by decide) (by decide) (by decide) (by decide) (by decide) (by decide) (by decide)

end MakeComposable
